import Mathlib

/-!
# Product search API (`main.go`)

A shallow embedding of `generateProducts`, `indexProducts` and `searchHandler`.

The program delegates three things to libraries: random category choice
(`math/rand`), the full-text index (`bleve`) and HTTP/JSON plumbing
(`net/http`, `encoding/json`).  The embedding keeps the program's own control
flow and takes the libraries as parameters:

* `rand.Intn` is a stream `rnd` of raw draws, reduced modulo the bound;
* the index is a record of operations (`IndexOps`) for the build, and the
  `Search` method of the process-wide index for the handler;
* a response is its status code, its `Content-Type` and its body; the body is
  either the text line written by `http.Error` or what `json.Encoder.Encode`
  writes for a `[]Product` (`null` for the nil slice, an array otherwise).

Go's `int` is read as a mathematical integer.  `strconv.Atoi` keeps its 64-bit
range check, which is the only place where the width is observable: indices
and lengths of slices that fit in memory are far from the bounds.
-/

namespace ProductSearch

/-! ## Data model -/

/-- Catalog record, `type Product struct`; the JSON keys are `id`, `name`,
`category`. -/
structure Product where
  ID : Int
  Name : String
  Category : String
deriving DecidableEq

/-- The local `categories` of `generateProducts`. -/
def categories : List String :=
  ["Electronics", "Footwear", "Fitness", "Home & Kitchen", "Books", "Toys"]

/-- The value of `strconv.Itoa(i)`: decimal digits, with a leading minus sign
for a negative number. -/
def Itoa (i : Int) : String := toString i

/-- The value of `fmt.Sprintf("Product %d", i)`. -/
def productName (i : Int) : String := "Product " ++ Itoa i

/-- The value of `rand.Intn(n)` at the `call`-th use of the global generator:
the raw draw reduced into `[0, n)`. -/
def Intn (rnd : Nat → Nat) (call n : Nat) : Nat := rnd call % n

/-! ## `generateProducts` -/

/-- The `for i := 1; i <= n; i++` loop of `generateProducts`, entered with
counter `i`, the slice built so far and the number of draws already made. -/
def generateLoop (rnd : Nat → Nat) (n : Int) (i : Int) (call : Nat)
    (items : List Product) : List Product :=
  if i ≤ n then
    generateLoop rnd n (i + 1) (call + 1)
      (items ++ [{ ID := i
                   Name := productName i
                   Category := categories.getD (Intn rnd call categories.length) "" }])
  else items
termination_by (n + 1 - i).toNat
decreasing_by omega

/-- The function `generateProducts(n)`. -/
def generateProducts (rnd : Nat → Nat) (n : Int) : List Product :=
  generateLoop rnd n 1 0 []

/-! ## `strconv.Atoi` and slice operations -/

/-- Whether a character is an ASCII decimal digit. -/
def isDigit (c : Char) : Bool := 48 ≤ c.toNat && c.toNat ≤ 57

/-- Base-10 value of a digit string, most significant digit first. -/
def digitsValue (ds : List Char) : Nat :=
  ds.foldl (fun n ch => n * 10 + (ch.toNat - 48)) 0

/-- Parse of the part of the input after the optional sign: at least one
character, all of them digits. -/
def parseDigits (ds : List Char) : Option Nat :=
  if ds = [] then none
  else if ds.all isDigit then some (digitsValue ds)
  else none

/-- The optional leading sign of the input: whether it is `-`, and the
characters after the sign. -/
def splitSign : List Char → Bool × List Char
  | '-' :: rest => (true, rest)
  | '+' :: rest => (false, rest)
  | cs => (false, cs)

/-- The function `strconv.Atoi` on a 64-bit platform: `some v` when it returns
`(v, nil)`, `none` when it returns an error.  The input is an optional `+` or
`-`, then one or more decimal digits, and the value has to fit in `int`. -/
def Atoi (s : String) : Option Int :=
  let signed := splitSign s.toList
  match parseDigits signed.2 with
  | none => none
  | some m =>
    let v : Int := if signed.1 then -(m : Int) else (m : Int)
    if -(2 : Int) ^ 63 ≤ v ∧ v < (2 : Int) ^ 63 then some v else none

/-- A slice that may be nil (`none`), as `var results []Product` is before the
first `append`. -/
abbrev Slice (α : Type) := Option (List α)

/-- The builtin `append(s, x)`: the result is never nil. -/
def Slice.append {α : Type} : Slice α → α → Slice α
  | none, x => some [x]
  | some l, x => some (l ++ [x])

/-- The elements of a slice; a nil slice has none. -/
def Slice.elems {α : Type} : Slice α → List α
  | none => []
  | some l => l

/-- A run-time panic of the Go program. -/
inductive Panic where
  | indexOutOfRange (index : Int) (len : Nat)
deriving DecidableEq

/-- The index expression `xs[i]`: a panic unless `0 <= i < len(xs)`. -/
def sliceIndex {α : Type} (xs : List α) (i : Int) : Except Panic α :=
  if 0 ≤ i then
    match xs.get? i.toNat with
    | some x => .ok x
    | none => .error (.indexOutOfRange i xs.length)
  else .error (.indexOutOfRange i xs.length)

/-! ## The search interface of the index -/

/-- The fields of `bleve.SearchRequest` that `bleve.NewSearchRequestOptions`
sets from its arguments. -/
structure SearchRequest where
  Query : String
  Size : Int
  From : Int
  Explain : Bool
deriving DecidableEq

/-- The function `bleve.NewSearchRequestOptions(q, size, from, explain)` over the
query string wrapped by `bleve.NewQueryStringQuery`. -/
def NewSearchRequestOptions (q : String) (size from_ : Int) (explain : Bool) :
    SearchRequest :=
  { Query := q, Size := size, From := from_, Explain := explain }

/-- One element of `res.Hits`; the handler reads only its `ID`. -/
structure Hit where
  ID : String
deriving DecidableEq

/-- The fields of `bleve.SearchResult` the program and its specification speak
of: the page of hits and the total number of matching documents. -/
structure SearchResult where
  Hits : List Hit
  Total : Nat
deriving DecidableEq

/-- The paging contract of `index.Search`: the page holds
`min(Size, max(0, Total - From))` hits. -/
def PagingContract (req : SearchRequest) (res : SearchResult) : Prop :=
  (res.Hits.length : Int) = min req.Size (max 0 ((res.Total : Int) - req.From))

/-! ## `searchHandler` -/

/-- The parsed query string of the request, `r.URL.Query()`, as its
key/value pairs in order of appearance. -/
structure Request where
  query : List (String × String)

/-- The method `url.Values.Get`: the first value of the key, `""` when the key
is absent. -/
def Request.Get (r : Request) (key : String) : String :=
  match r.query.find? (fun kv => kv.1 = key) with
  | some kv => kv.2
  | none => ""

/-- What the handler wrote to the response body. -/
inductive Body where
  /-- The line printed by `http.Error`. -/
  | text (line : String)
  /-- The encoding of a nil `[]Product`: the JSON value `null`. -/
  | jsonNull
  /-- The encoding of a non-nil `[]Product`: a JSON array with one object per
  record, in order. -/
  | jsonArray (records : List Product)
deriving DecidableEq

/-- The product records a body carries. -/
def Body.records : Body → List Product
  | .text _ => []
  | .jsonNull => []
  | .jsonArray rs => rs

/-- The response as the client sees it. -/
structure Response where
  status : Nat
  contentType : String
  body : Body
deriving DecidableEq

/-- The constant `http.StatusOK`. -/
def StatusOK : Nat := 200

/-- The constant `http.StatusBadRequest`. -/
def StatusBadRequest : Nat := 400

/-- The constant `http.StatusInternalServerError`. -/
def StatusInternalServerError : Nat := 500

/-- The function `http.Error(w, msg, code)`: a plain-text response with the
given status whose body is the message followed by a newline. -/
def httpError (msg : String) (code : Nat) : Response :=
  { status := code, contentType := "text/plain; charset=utf-8", body := .text (msg ++ "\n") }

/-- The call `json.NewEncoder(w).Encode(results)` for a `[]Product`. -/
def encodeProducts : Slice Product → Body
  | none => .jsonNull
  | some rs => .jsonArray rs

/-- The `for _, hit := range res.Hits` loop of `searchHandler`, entered with the
hits still to visit and the `results` slice built so far. -/
def hydrate (products : List Product) : List Hit → Slice Product → Except Panic (Slice Product)
  | [], results => .ok results
  | hit :: rest, results =>
    match Atoi hit.ID with
    | none => hydrate products rest results
    | some id =>
      if id ≤ 0 ∨ id > (products.length : Int) then hydrate products rest results
      else
        match sliceIndex products (id - 1) with
        | .error p => .error p
        | .ok item => hydrate products rest (results.append item)

/-- One execution of the handler: the response written and the requests passed
to `index.Search`, in order. -/
structure Run where
  response : Response
  searches : List SearchRequest
deriving DecidableEq

/-- The function `searchHandler`, over the process-wide `products` and the
`Search` method of the process-wide `index`. -/
def searchHandler (products : List Product)
    (Search : SearchRequest → Except String SearchResult) (r : Request) :
    Except Panic Run :=
  let query := r.Get "q"
  if query = "" then
    .ok { response := httpError "Query param 'q' is required" StatusBadRequest, searches := [] }
  else
    let sreq := NewSearchRequestOptions query 50 0 false
    match Search sreq with
    | .error _ =>
      .ok { response := httpError "Search failed" StatusInternalServerError, searches := [sreq] }
    | .ok res =>
      match hydrate products res.Hits none with
      | .error p => .error p
      | .ok results =>
        .ok { response := { status := StatusOK
                            contentType := "application/json"
                            body := encodeProducts results }
              searches := [sreq] }

/-! ## `indexProducts` -/

/-- The operations of a `bleve.Index`, over an index state `σ`: `NewMemOnly`
returns a fresh index or an error; `Index` stores a document under a key and
returns the index afterwards together with the error, if any; `Search` is the
method the handler calls; `doc` is the document stored under a key, what
`idx.Document(key)` reads back.  The program never calls `doc`: it is the
observation in which the result of the build is stated. -/
structure IndexOps (σ : Type) where
  NewMemOnly : Except String σ
  Index : σ → String → Product → σ × Option String
  Search : σ → SearchRequest → Except String SearchResult
  doc : σ → String → Option Product

/-- One call `idx.Index(key, doc)` and whether it returned a nil error. -/
structure IndexCall where
  key : String
  doc : Product
  ok : Bool
deriving DecidableEq

/-- The state of the build: the index, the calls of `idx.Index` made so far and
the lines printed by `log.Printf`. -/
structure Build (σ : Type) where
  idx : σ
  calls : List IndexCall
  log : List String

/-- The `for _, p := range products` loop of `indexProducts`. -/
def indexLoop {σ : Type} (ops : IndexOps σ) : List Product → Build σ → Build σ
  | [], b => b
  | p :: rest, b =>
    let r := ops.Index b.idx (Itoa p.ID) p
    match r.2 with
    | some err =>
      indexLoop ops rest
        { idx := r.1
          calls := b.calls ++ [{ key := Itoa p.ID, doc := p, ok := false }]
          log := b.log ++ ["Failed to index product ID " ++ Itoa p.ID ++ ": " ++ err] }
    | none =>
      indexLoop ops rest
        { idx := r.1
          calls := b.calls ++ [{ key := Itoa p.ID, doc := p, ok := true }]
          log := b.log }

/-- The function `indexProducts`: `.error` is the message of `log.Fatalf`, which
ends the process; `.ok` is the returned index with the trace of the build. -/
def indexProducts {σ : Type} (ops : IndexOps σ) (products : List Product) :
    Except String (Build σ) :=
  match ops.NewMemOnly with
  | .error err => .error ("Error creating Bleve index: " ++ err)
  | .ok idx => .ok (indexLoop ops products { idx := idx, calls := [], log := [] })

/-! ## Specification-level vocabulary -/

/-- The record built by iteration `i` of `generateProducts` when it makes the
`call`-th draw. -/
def mkProduct (rnd : Nat → Nat) (i : Int) (call : Nat) : Product :=
  { ID := i
    Name := productName i
    Category := categories.getD (Intn rnd call categories.length) "" }

/-- The catalog lookup of one hit: the record stored for the hit's id, `none`
when the id does not parse or lies outside `1..len(products)`. -/
def catalogGet (products : List Product) (h : Hit) : Option Product :=
  match Atoi h.ID with
  | none => none
  | some id =>
    if id ≤ 0 ∨ id > (products.length : Int) then none
    else products.get? (id - 1).toNat

/-- A slice after appending the elements of a list one by one. -/
def Slice.extend {α : Type} (s : Slice α) : List α → Slice α
  | [] => s
  | x :: xs => some (s.elems ++ x :: xs)

/-- Whether a string has no non-whitespace content. -/
def isBlank (s : String) : Bool := s.toList.all Char.isWhitespace

/-- The id of a hit when it is in the catalog of `generateProducts(n)`: the
parsed integer when it lies in `1..n`. -/
def hitIdIn (n : Int) (h : Hit) : Option Int :=
  (Atoi h.ID).filter (fun id => decide (1 ≤ id ∧ id ≤ n))

/-- The index after `idx.Index(strconv.Itoa(p.ID), p)` has been called for every
product of the list in order, from the index `s`, whatever each call
returned. -/
def stateAfter {σ : Type} (ops : IndexOps σ) (s : σ) (ps : List Product) : σ :=
  ps.foldl (fun t p => (ops.Index t (Itoa p.ID) p).1) s

/-- The call `idx.Index(strconv.Itoa(p.ID), p)` on the index `s`, with the
outcome `ops.Index` gives it there. -/
def callAt {σ : Type} (ops : IndexOps σ) (s : σ) (p : Product) : IndexCall :=
  { key := Itoa p.ID, doc := p, ok := (ops.Index s (Itoa p.ID) p).2.isNone }

/-! ## Fixtures: the three-document corpus of the specification's scenario -/

/-- The corpus `{1,"Red Shoes","Footwear"}, {2,"Blue Shoes","Footwear"},
{3,"Red Book","Books"}`. -/
def scenarioProducts : List Product :=
  [⟨1, "Red Shoes", "Footwear"⟩, ⟨2, "Blue Shoes", "Footwear"⟩, ⟨3, "Red Book", "Books"⟩]

/-- The request `GET /search?q=<value>`. -/
def requestQ (value : String) : Request := { query := [("q", value)] }

/-- An index whose every search succeeds with the given page of hit ids. -/
def searchReturning (ids : List String) (total : Nat) :
    SearchRequest → Except String SearchResult :=
  fun _ => .ok { Hits := ids.map Hit.mk, Total := total }

/-- An index whose every search fails. -/
def searchFailing : SearchRequest → Except String SearchResult :=
  fun _ => .error "index closed"

/-- A small in-memory index: the stored entries, most recent first.  `Index`
refuses a document whose name is empty and stores every other one; the
document of a key is its most recent entry; `Search` matches the query against
the category of the stored documents, oldest first, and pages the matches. -/
def listIndex : IndexOps (List (String × Product)) where
  NewMemOnly := .ok []
  Index := fun s key doc =>
    if doc.Name = "" then (s, some "document has no name") else ((key, doc) :: s, none)
  Search := fun s req =>
    let found := s.reverse.filter (fun kd => decide (kd.2.Category = req.Query))
    .ok { Hits := ((found.drop req.From.toNat).take req.Size.toNat).map (fun kd => ⟨kd.1⟩)
          Total := found.length }
  doc := fun s key => (s.find? (fun kd => decide (kd.1 = key))).map (fun kd => kd.2)

/-! ## Lemmas on `generateProducts` -/

theorem generateLoop_eq (rnd : Nat → Nat) (n : Int) :
    ∀ (m : Nat) (i : Int) (call : Nat) (items : List Product),
      (n + 1 - i).toNat = m →
      generateLoop rnd n i call items =
        items ++ (List.range m).map (fun (k : Nat) => mkProduct rnd (i + (k : Int)) (call + k)) := by
  intro m
  induction m with
  | zero =>
    intro i call items hm
    rw [generateLoop]
    have hlt : ¬ i ≤ n := by omega
    simp [hlt]
  | succ m ih =>
    intro i call items hm
    rw [generateLoop]
    have hle : i ≤ n := by omega
    rw [if_pos hle, ih (i + 1) (call + 1) _ (by omega)]
    rw [List.range_succ_eq_map, List.map_cons, List.map_map, List.append_assoc]
    congr 1
    have hhead : mkProduct rnd (i + ((0 : Nat) : Int)) (call + 0) =
        { ID := i
          Name := productName i
          Category := categories.getD (Intn rnd call categories.length) "" } := by
      simp [mkProduct]
    rw [hhead, List.singleton_append]
    congr 1
    apply List.map_congr_left
    intro k _
    have h1 : i + 1 + (k : Int) = i + ((Nat.succ k : Nat) : Int) := by
      push_cast
      ring
    have h2 : call + 1 + k = call + Nat.succ k := by omega
    simp only [Function.comp, h1, h2]

theorem generateProducts_eq (rnd : Nat → Nat) (n : Int) :
    generateProducts rnd n =
      (List.range n.toNat).map (fun (k : Nat) => mkProduct rnd (1 + (k : Int)) k) := by
  unfold generateProducts
  rw [generateLoop_eq rnd n n.toNat 1 0 [] (by omega)]
  simp

theorem generateProducts_length (rnd : Nat → Nat) (n : Int) :
    (generateProducts rnd n).length = n.toNat := by
  simp [generateProducts_eq]

theorem generateProducts_get? (rnd : Nat → Nat) (n : Int) (k : Nat) (hk : k < n.toNat) :
    (generateProducts rnd n).get? k = some (mkProduct rnd (1 + (k : Int)) k) := by
  simp [generateProducts_eq, List.getElem?_range hk, hk]

/-! ## Lemmas on slices and on the hydration loop -/

theorem sliceIndex_of_inRange {α : Type} (xs : List α) (i : Int)
    (h0 : 0 ≤ i) (h1 : i < (xs.length : Int)) :
    ∃ x, xs.get? i.toNat = some x ∧ sliceIndex xs i = .ok x := by
  have hlt : i.toNat < xs.length := by omega
  refine ⟨xs.get ⟨i.toNat, hlt⟩, List.get?_eq_get hlt, ?_⟩
  unfold sliceIndex
  rw [if_pos h0, List.get?_eq_get hlt]

theorem sliceIndex_error_iff {α : Type} (xs : List α) (i : Int) :
    (∃ p, sliceIndex xs i = .error p) ↔ ¬ (0 ≤ i ∧ i < (xs.length : Int)) := by
  constructor
  · rintro ⟨p, hp⟩ ⟨h0, h1⟩
    obtain ⟨x, -, hx⟩ := sliceIndex_of_inRange xs i h0 h1
    rw [hx] at hp
    cases hp
  · intro h
    unfold sliceIndex
    by_cases h0 : 0 ≤ i
    · have hge : xs.length ≤ i.toNat := by omega
      rw [if_pos h0, List.get?_eq_none.mpr hge]
      exact ⟨_, rfl⟩
    · rw [if_neg h0]
      exact ⟨_, rfl⟩

theorem Slice.extend_append {α : Type} (s : Slice α) (x : α) (l : List α) :
    (s.append x).extend l = s.extend (x :: l) := by
  cases s <;> cases l <;> simp [Slice.append, Slice.extend, Slice.elems]

theorem Slice.elems_extend {α : Type} (s : Slice α) (l : List α) :
    (s.extend l).elems = s.elems ++ l := by
  cases l <;> simp [Slice.extend, Slice.elems]

theorem hydrate_eq (products : List Product) :
    ∀ (hits : List Hit) (results : Slice Product),
      hydrate products hits results =
        .ok (results.extend (hits.filterMap (catalogGet products))) := by
  intro hits
  induction hits with
  | nil => intro results; rfl
  | cons hit rest ih =>
    intro results
    unfold hydrate
    cases hid : Atoi hit.ID with
    | none =>
      have hget : catalogGet products hit = none := by simp [catalogGet, hid]
      simp only [List.filterMap_cons, hget]
      exact ih results
    | some id =>
      by_cases hout : id ≤ 0 ∨ id > (products.length : Int)
      · have hget : catalogGet products hit = none := by simp [catalogGet, hid, hout]
        simp only [if_pos hout, List.filterMap_cons, hget]
        exact ih results
      · obtain ⟨x, hx, hidx⟩ :=
          sliceIndex_of_inRange products (id - 1) (by omega) (by omega)
        have hget : catalogGet products hit = some x := by
          simp only [catalogGet, hid, if_neg hout, hx]
        simp only [if_neg hout, hidx, List.filterMap_cons, hget]
        rw [ih, Slice.extend_append]

theorem encodeProducts_records (s : Slice Product) :
    (encodeProducts s).records = s.elems := by
  cases s <;> rfl

/-- The run of `searchHandler` on a non-empty query whose search succeeded. -/
theorem searchHandler_ok (products : List Product)
    (Search : SearchRequest → Except String SearchResult) (r : Request)
    (res : SearchResult) (hq : r.Get "q" ≠ "")
    (hs : Search (NewSearchRequestOptions (r.Get "q") 50 0 false) = .ok res) :
    searchHandler products Search r =
      .ok { response :=
              { status := StatusOK
                contentType := "application/json"
                body := encodeProducts
                  (Slice.extend none (res.Hits.filterMap (catalogGet products))) }
            searches := [NewSearchRequestOptions (r.Get "q") 50 0 false] } := by
  unfold searchHandler
  simp only [if_neg hq, hs, hydrate_eq]

/-- The run of `searchHandler` on a non-empty query whose search failed. -/
theorem searchHandler_searchError (products : List Product)
    (Search : SearchRequest → Except String SearchResult) (r : Request)
    (e : String) (hq : r.Get "q" ≠ "")
    (hs : Search (NewSearchRequestOptions (r.Get "q") 50 0 false) = .error e) :
    searchHandler products Search r =
      .ok { response := httpError "Search failed" StatusInternalServerError
            searches := [NewSearchRequestOptions (r.Get "q") 50 0 false] } := by
  unfold searchHandler
  simp only [if_neg hq, hs]

/-- The run of `searchHandler` when `q` is missing or empty. -/
theorem searchHandler_noQuery (products : List Product)
    (Search : SearchRequest → Except String SearchResult) (r : Request)
    (hq : r.Get "q" = "") :
    searchHandler products Search r =
      .ok { response := httpError "Query param 'q' is required" StatusBadRequest
            searches := [] } := by
  unfold searchHandler
  simp only [if_pos hq]

/-! ## C1: missing or empty `q` -/

/-- C1: when the `q` parameter is missing from the request or is the empty
string, the handler answers with status 400, passes no request to the index
search and writes no product record to the body. -/
theorem searchHandler_rejects_missing_or_empty_q (products : List Product)
    (Search : SearchRequest → Except String SearchResult) (r : Request)
    (hq : (∀ kv ∈ r.query, kv.1 ≠ "q") ∨ r.Get "q" = "") :
    ∃ run, searchHandler products Search r = .ok run ∧
      run.response.status = 400 ∧
      run.searches = [] ∧
      run.response.body.records = [] := by
  have hempty : r.Get "q" = "" := by
    rcases hq with hmiss | hq
    · unfold Request.Get
      have hnone : r.query.find? (fun kv => decide (kv.1 = "q")) = none := by
        rw [List.find?_eq_none]
        intro kv hkv
        simpa using hmiss kv hkv
      rw [hnone]
    · exact hq
  exact ⟨_, searchHandler_noQuery products Search r hempty, rfl, rfl, rfl⟩

/-- Witness of C1: a request without `q` and the request `q=` over the scenario
corpus and an index that would return two hits. -/
theorem searchHandler_rejects_missing_or_empty_q_witness :
    (∃ run, searchHandler scenarioProducts (searchReturning ["1", "2"] 2) { query := [] }
        = .ok run ∧
      run.response.status = 400 ∧ run.searches = [] ∧ run.response.body.records = []) ∧
    (∃ run, searchHandler scenarioProducts (searchReturning ["1", "2"] 2) (requestQ "")
        = .ok run ∧
      run.response.status = 400 ∧ run.searches = [] ∧ run.response.body.records = []) :=
  ⟨searchHandler_rejects_missing_or_empty_q scenarioProducts _ { query := [] }
      (Or.inl (by simp)),
   searchHandler_rejects_missing_or_empty_q scenarioProducts _ (requestQ "")
      (Or.inr (by decide))⟩

/-! ## C9: the index search fails -/

/-- C9: for a non-empty `q` whose index search returns an error, the handler
answers with status 500 and the body is the text line of `http.Error`, which
carries no product record. -/
theorem searchHandler_search_error_is_500 (products : List Product)
    (Search : SearchRequest → Except String SearchResult) (r : Request) (e : String)
    (hq : r.Get "q" ≠ "")
    (hs : Search (NewSearchRequestOptions (r.Get "q") 50 0 false) = .error e) :
    ∃ run, searchHandler products Search r = .ok run ∧
      run.response.status = 500 ∧
      run.response.body = .text "Search failed\n" ∧
      run.response.body.records = [] :=
  ⟨_, searchHandler_searchError products Search r e hq hs, rfl, rfl, rfl⟩

/-- Witness of C9: the query `q=shoes` over the scenario corpus and a failing
index. -/
theorem searchHandler_search_error_is_500_witness :
    ∃ run, searchHandler scenarioProducts searchFailing (requestQ "shoes") = .ok run ∧
      run.response.status = 500 ∧
      run.response.body = .text "Search failed\n" ∧
      run.response.body.records = [] :=
  searchHandler_search_error_is_500 scenarioProducts searchFailing (requestQ "shoes")
    "index closed" (by decide) rfl

/-! ## C10: the catalog read never panics -/

/-- C10: the index expression `products[id-1]` panics exactly when `id-1` is
outside `0 <= id-1 < len(products)`, and no execution of the hydration loop or
of the handler ends in a panic, whatever the catalog, the index and the hit
ids are: every read the handler makes is in range. -/
theorem searchHandler_never_panics :
    (∀ (products : List Product) (i : Int),
      (∃ p, sliceIndex products i = .error p) ↔ ¬ (0 ≤ i ∧ i < (products.length : Int))) ∧
    (∀ (products : List Product) (hits : List Hit) (results : Slice Product),
      ∃ out, hydrate products hits results = .ok out) ∧
    (∀ (products : List Product) (Search : SearchRequest → Except String SearchResult)
      (r : Request), ∃ run, searchHandler products Search r = .ok run) := by
  refine ⟨fun products i => sliceIndex_error_iff products i,
    fun products hits results => ⟨_, hydrate_eq products hits results⟩, ?_⟩
  intro products Search r
  by_cases hq : r.Get "q" = ""
  · exact ⟨_, searchHandler_noQuery products Search r hq⟩
  · cases hs : Search (NewSearchRequestOptions (r.Get "q") 50 0 false) with
    | error e => exact ⟨_, searchHandler_searchError products Search r e hq hs⟩
    | ok res => exact ⟨_, searchHandler_ok products Search r res hq hs⟩

/-! ## C2: a hit whose id is absent from the catalog -/

/-- Counterexample to C2: over the scenario corpus the index returns the hits
`"1"`, `"7"` and `"x"`; the ids `7` and `x` are absent from the catalog, and
the handler answers 200 with the record of hit `1` only, not a server error. -/
theorem absent_hit_is_server_error_counterexample :
    catalogGet scenarioProducts ⟨"7"⟩ = none ∧
    catalogGet scenarioProducts ⟨"x"⟩ = none ∧
    searchHandler scenarioProducts (searchReturning ["1", "7", "x"] 3) (requestQ "red") =
      .ok { response := { status := 200
                          contentType := "application/json"
                          body := .jsonArray [⟨1, "Red Shoes", "Footwear"⟩] }
            searches := [{ Query := "red", Size := 50, From := 0, Explain := false }] } :=
  ⟨by decide, by decide, rfl⟩

/-- C2, amended: for a non-empty `q` whose index search succeeds, the handler
never answers with a server error: the status is 200 and the body carries, in
order, the catalog records of the hits whose id is in the catalog; a hit whose
id does not parse or lies outside `1..len(products)` contributes nothing. -/
theorem searchHandler_skips_absent_hits (products : List Product)
    (Search : SearchRequest → Except String SearchResult) (r : Request)
    (res : SearchResult) (hq : r.Get "q" ≠ "")
    (hs : Search (NewSearchRequestOptions (r.Get "q") 50 0 false) = .ok res) :
    ∃ run, searchHandler products Search r = .ok run ∧
      run.response.status = 200 ∧
      run.response.status ≠ 500 ∧
      run.response.body.records = res.Hits.filterMap (catalogGet products) ∧
      (∀ h : Hit, (∀ id, Atoi h.ID = some id → id ≤ 0 ∨ id > (products.length : Int)) →
        catalogGet products h = none) := by
  refine ⟨_, searchHandler_ok products Search r res hq hs, rfl, ?_, ?_, ?_⟩
  · show StatusOK ≠ 500
    decide
  · show (encodeProducts _).records = _
    rw [encodeProducts_records, Slice.elems_extend]
    rfl
  · intro h habsent
    unfold catalogGet
    cases hid : Atoi h.ID with
    | none => rfl
    | some id => simp only [if_pos (habsent id hid)]

/-- Witness of C2, amended: the query `q=red` over the scenario corpus with the
hits `"1"`, `"7"`, `"x"`. -/
theorem searchHandler_skips_absent_hits_witness :
    ∃ run, searchHandler scenarioProducts (searchReturning ["1", "7", "x"] 3)
        (requestQ "red") = .ok run ∧
      run.response.status = 200 ∧
      run.response.status ≠ 500 ∧
      run.response.body.records =
        (["1", "7", "x"].map Hit.mk).filterMap (catalogGet scenarioProducts) ∧
      (∀ h : Hit,
        (∀ id, Atoi h.ID = some id → id ≤ 0 ∨ id > (scenarioProducts.length : Int)) →
        catalogGet scenarioProducts h = none) :=
  searchHandler_skips_absent_hits scenarioProducts (searchReturning ["1", "7", "x"] 3)
    (requestQ "red") { Hits := ["1", "7", "x"].map Hit.mk, Total := 3 } (by decide) rfl

/-! ## C3: a search with zero hits -/

/-- C3, the code at the failing input: the query `q=nonexistentterm` over the
scenario corpus, with an index that finds nothing, is answered with status 200
and the body `null`, the encoding of the nil `results` slice, which is not the
empty array. -/
theorem zero_hits_body_is_null :
    searchHandler scenarioProducts (searchReturning [] 0) (requestQ "nonexistentterm") =
      .ok { response := { status := 200
                          contentType := "application/json"
                          body := .jsonNull }
            searches := [{ Query := "nonexistentterm", Size := 50, From := 0,
                           Explain := false }] } ∧
    Body.jsonNull ≠ Body.jsonArray [] :=
  ⟨rfl, by decide⟩

/-! ## C4: a query of whitespace only -/

/-- Counterexample to C4: the query `q=%20` (one space) has no non-whitespace
content, yet no catalog and no index make the handler answer it with status
400; with an index that finds nothing the handler runs the search and answers
200. -/
theorem blank_query_is_client_error_counterexample :
    isBlank " " = true ∧
    (¬ ∃ (products : List Product) (Search : SearchRequest → Except String SearchResult)
        (run : Run),
      searchHandler products Search (requestQ " ") = .ok run ∧
        run.response.status = StatusBadRequest) ∧
    searchHandler scenarioProducts (searchReturning [] 0) (requestQ " ") =
      .ok { response := { status := 200
                          contentType := "application/json"
                          body := .jsonNull }
            searches := [{ Query := " ", Size := 50, From := 0, Explain := false }] } := by
  refine ⟨by decide, ?_, rfl⟩
  rintro ⟨products, Search, run, hrun, hstatus⟩
  have hq : (requestQ " ").Get "q" ≠ "" := by decide
  cases hs : Search (NewSearchRequestOptions ((requestQ " ").Get "q") 50 0 false) with
  | error e =>
    rw [searchHandler_searchError products Search _ e hq hs] at hrun
    cases hrun
    exact absurd hstatus (show StatusInternalServerError ≠ StatusBadRequest by decide)
  | ok res =>
    rw [searchHandler_ok products Search _ res hq hs] at hrun
    cases hrun
    exact absurd hstatus (show StatusOK ≠ StatusBadRequest by decide)

/-- C4, amended: the handler answers with status 400 exactly when `q` is the
empty string (missing or empty), and then runs no search; every other `q`,
a string of whitespace included, is passed to the index search once, with
limit 50 and offset 0, and the answer is 500 when that search returns an error
and 200 when it succeeds. -/
theorem searchHandler_client_error_iff_empty (products : List Product)
    (Search : SearchRequest → Except String SearchResult) (r : Request) :
    ∃ run, searchHandler products Search r = .ok run ∧
      (run.response.status = 400 ↔ r.Get "q" = "") ∧
      (r.Get "q" = "" → run.searches = []) ∧
      (r.Get "q" ≠ "" →
        run.searches = [NewSearchRequestOptions (r.Get "q") 50 0 false] ∧
        (run.response.status = 500 ↔
          ∃ e, Search (NewSearchRequestOptions (r.Get "q") 50 0 false) = .error e) ∧
        (run.response.status = 200 ↔
          ∃ res, Search (NewSearchRequestOptions (r.Get "q") 50 0 false) = .ok res)) := by
  by_cases hq : r.Get "q" = ""
  · refine ⟨_, searchHandler_noQuery products Search r hq, ?_, fun _ => rfl,
      fun h => absurd hq h⟩
    exact ⟨fun _ => hq, fun _ => rfl⟩
  · cases hs : Search (NewSearchRequestOptions (r.Get "q") 50 0 false) with
    | error e =>
      have h400 : StatusInternalServerError ≠ 400 := by decide
      have h200 : StatusInternalServerError ≠ 200 := by decide
      refine ⟨_, searchHandler_searchError products Search r e hq hs, ?_,
        fun h => absurd h hq, fun _ => ⟨rfl, ?_, ?_⟩⟩
      · exact ⟨fun h => absurd h h400, fun h => absurd h hq⟩
      · exact ⟨fun _ => ⟨e, rfl⟩, fun _ => rfl⟩
      · constructor
        · intro h
          exact absurd h h200
        · rintro ⟨res, hres⟩
          cases hres
    | ok res =>
      have h400 : StatusOK ≠ 400 := by decide
      have h500 : StatusOK ≠ 500 := by decide
      refine ⟨_, searchHandler_ok products Search r res hq hs, ?_,
        fun h => absurd h hq, fun _ => ⟨rfl, ?_, ?_⟩⟩
      · exact ⟨fun h => absurd h h400, fun h => absurd h hq⟩
      · constructor
        · intro h
          exact absurd h h500
        · rintro ⟨e, he⟩
          cases he
      · exact ⟨fun _ => ⟨res, rfl⟩, fun _ => rfl⟩

/-! ## `strconv.Atoi` reads back what `strconv.Itoa` writes -/

theorem digitChar_spec : ∀ d : Nat, d < 10 →
    isDigit (Nat.digitChar d) = true ∧ (Nat.digitChar d).toNat - 48 = d := by
  decide

theorem digitsValue_append_singleton (l : List Char) (c : Char) :
    digitsValue (l ++ [c]) = digitsValue l * 10 + (c.toNat - 48) := by
  simp [digitsValue, List.foldl_append]

theorem toDigitsCore_spec : ∀ (fuel n : Nat) (ds : List Char), n < fuel →
    ∃ l, Nat.toDigitsCore 10 fuel n ds = l ++ ds ∧ l ≠ [] ∧
      l.all isDigit = true ∧ digitsValue l = n := by
  intro fuel
  induction fuel with
  | zero => intro n ds h; omega
  | succ fuel ih =>
    intro n ds h
    have hd := digitChar_spec (n % 10) (Nat.mod_lt n (by decide))
    unfold Nat.toDigitsCore
    by_cases h0 : n / 10 = 0
    · refine ⟨[Nat.digitChar (n % 10)], by simp [h0], by simp, by simp [hd.1], ?_⟩
      simp only [digitsValue, List.foldl_cons, List.foldl_nil, hd.2]
      omega
    · obtain ⟨l, hl, hne, hall, hval⟩ := ih (n / 10) (Nat.digitChar (n % 10) :: ds) (by omega)
      refine ⟨l ++ [Nat.digitChar (n % 10)], ?_, by simp, ?_, ?_⟩
      · simp [h0, hl]
      · simp [List.all_append, hall, hd.1]
      · rw [digitsValue_append_singleton, hval, hd.2]
        omega

theorem splitSign_of_isDigit (c : Char) (rest : List Char) (hc : isDigit c = true) :
    splitSign (c :: rest) = (false, c :: rest) := by
  have hminus : isDigit '-' = false := by decide
  have hplus : isDigit '+' = false := by decide
  unfold splitSign
  split
  · rename_i heq
    cases heq
    rw [hminus] at hc
    cases hc
  · rename_i heq
    cases heq
    rw [hplus] at hc
    cases hc
  · rfl

theorem Atoi_Itoa (k : Int) (h0 : 0 ≤ k) (h1 : k < 2 ^ 63) : Atoi (Itoa k) = some k := by
  obtain ⟨m, rfl⟩ := Int.eq_ofNat_of_zero_le h0
  obtain ⟨l, hl, hne, hall, hval⟩ := toDigitsCore_spec (m + 1) m [] (by omega)
  rw [List.append_nil] at hl
  have hlist : (Itoa (m : Int)).toList = l := by
    show (Nat.toDigits 10 m).asString.toList = l
    unfold Nat.toDigits
    rw [hl]
    rfl
  cases l with
  | nil => exact absurd rfl hne
  | cons c rest =>
    have hc : isDigit c = true := by
      rw [List.all_cons, Bool.and_eq_true] at hall
      exact hall.1
    have hparse : parseDigits (c :: rest) = some m := by
      unfold parseDigits
      rw [if_neg hne, if_pos hall, hval]
    unfold Atoi
    simp only [hlist, splitSign_of_isDigit c rest hc, hparse]
    have hr : -(2 : Int) ^ 63 ≤ (m : Int) ∧ (m : Int) < (2 : Int) ^ 63 := by omega
    simp only [Bool.false_eq_true, if_false]
    rw [if_pos hr]

/-! ## C5: the generated corpus and the catalog lookup -/

theorem mem_generateProducts (rnd : Nat → Nat) (n : Int) (p : Product)
    (hp : p ∈ generateProducts rnd n) :
    ∃ k : Nat, k < n.toNat ∧ p = mkProduct rnd (1 + (k : Int)) k := by
  rw [generateProducts_eq, List.mem_map] at hp
  obtain ⟨k, hk, rfl⟩ := hp
  exact ⟨k, List.mem_range.mp hk, rfl⟩

theorem generateProducts_at (rnd : Nat → Nat) (n : Int) (id : Int)
    (h1 : 1 ≤ id) (hn : id ≤ n) :
    (generateProducts rnd n).get? (id - 1).toNat = some (mkProduct rnd id (id - 1).toNat) := by
  rw [generateProducts_get? rnd n (id - 1).toNat (by omega)]
  congr 2
  omega

/-- C5: for every `n` and `products = generateProducts(n)`, every product `p`
of the corpus passes the handler's range check (`1 <= p.ID <= len(products)`)
and the read `products[p.ID-1]` returns exactly `p`, so a hit whose id parses
to `p.ID` is hydrated to `p`, and so is, for `n` in the range of `int`, the hit
whose id is the index key `strconv.Itoa(p.ID)`; for every `k` with
`1 <= k <= n` the element at position `k-1` exists and has `ID` `k`; ids are
positive and pairwise distinct, and the corpus has `max(n, 0)` records. -/
theorem generateProducts_catalog_roundtrip (rnd : Nat → Nat) (n : Int) :
    (∀ p ∈ generateProducts rnd n,
      ¬ (p.ID ≤ 0 ∨ p.ID > ((generateProducts rnd n).length : Int)) ∧
      sliceIndex (generateProducts rnd n) (p.ID - 1) = .ok p ∧
      (∀ h : Hit, Atoi h.ID = some p.ID → catalogGet (generateProducts rnd n) h = some p) ∧
      (n < 2 ^ 63 → hydrate (generateProducts rnd n) [⟨Itoa p.ID⟩] none = .ok (some [p]))) ∧
    (∀ k : Int, 1 ≤ k → k ≤ n →
      ∃ p, (generateProducts rnd n).get? (k - 1).toNat = some p ∧ p.ID = k) ∧
    (∀ p ∈ generateProducts rnd n, 0 < p.ID) ∧
    ((generateProducts rnd n).map (fun p => p.ID)).Nodup ∧
    ((generateProducts rnd n).length : Int) = max n 0 := by
  have hlen := generateProducts_length rnd n
  refine ⟨?_, ?_, ?_, ?_, ?_⟩
  · intro p hp
    obtain ⟨k, hk, rfl⟩ := mem_generateProducts rnd n p hp
    have hid : (mkProduct rnd (1 + (k : Int)) k).ID = 1 + (k : Int) := rfl
    have hget := generateProducts_at rnd n (1 + (k : Int)) (by omega) (by omega)
    have hk' : (1 + (k : Int) - 1).toNat = k := by omega
    rw [hk'] at hget
    have hguard : ¬ ((mkProduct rnd (1 + (k : Int)) k).ID ≤ 0 ∨
        (mkProduct rnd (1 + (k : Int)) k).ID > ((generateProducts rnd n).length : Int)) := by
      rw [hid, hlen]
      omega
    have hcat : ∀ h : Hit, Atoi h.ID = some (mkProduct rnd (1 + (k : Int)) k).ID →
        catalogGet (generateProducts rnd n) h = some (mkProduct rnd (1 + (k : Int)) k) := by
      intro h hh
      unfold catalogGet
      rw [hh]
      simp only [if_neg hguard]
      rw [hid, hk', hget]
    refine ⟨hguard, ?_, hcat, ?_⟩
    · obtain ⟨x, hx, hidx⟩ := sliceIndex_of_inRange (generateProducts rnd n)
        ((mkProduct rnd (1 + (k : Int)) k).ID - 1) (by rw [hid]; omega)
        (by rw [hid, hlen]; omega)
      rw [hid, hk', hget] at hx
      rw [hidx]
      cases hx
      rfl
    · intro hn
      have hparse : Atoi (Hit.mk (Itoa (mkProduct rnd (1 + (k : Int)) k).ID)).ID =
          some (mkProduct rnd (1 + (k : Int)) k).ID :=
        Atoi_Itoa _ (by rw [hid]; omega) (by rw [hid]; omega)
      rw [hydrate_eq, List.filterMap_cons, hcat _ hparse]
      rfl
  · intro k h1 hn
    exact ⟨_, generateProducts_at rnd n k h1 hn, rfl⟩
  · intro p hp
    obtain ⟨k, -, rfl⟩ := mem_generateProducts rnd n p hp
    show 0 < 1 + (k : Int)
    omega
  · rw [generateProducts_eq, List.map_map]
    have hfun : ((fun p : Product => p.ID) ∘ fun (k : Nat) => mkProduct rnd (1 + (k : Int)) k)
        = fun (k : Nat) => 1 + (k : Int) := rfl
    rw [hfun]
    refine (List.nodup_range n.toNat).map ?_
    intro a b hab
    have : 1 + (a : Int) = 1 + (b : Int) := hab
    omega
  · rw [hlen]
    omega

/-! ## Lemmas on the length of the response -/

theorem length_filterMap_of_isSome {α β : Type} (f : α → Option β) :
    ∀ l : List α, (∀ x ∈ l, (f x).isSome = true) → (l.filterMap f).length = l.length := by
  intro l
  induction l with
  | nil => intro _; rfl
  | cons a l ih =>
    intro h
    obtain ⟨b, hb⟩ := Option.isSome_iff_exists.mp (h a (List.mem_cons_self a l))
    rw [List.filterMap_cons, hb]
    simp only [List.length_cons]
    rw [ih (fun x hx => h x (List.mem_cons_of_mem a hx))]

theorem map_some_filterMap_of_isSome {α β : Type} (f : α → Option β) :
    ∀ l : List α, (∀ x ∈ l, (f x).isSome = true) → (l.filterMap f).map some = l.map f := by
  intro l
  induction l with
  | nil => intro _; rfl
  | cons a l ih =>
    intro h
    obtain ⟨b, hb⟩ := Option.isSome_iff_exists.mp (h a (List.mem_cons_self a l))
    rw [List.filterMap_cons, hb]
    simp only [List.map_cons, hb]
    rw [ih (fun x hx => h x (List.mem_cons_of_mem a hx))]

/-- The records in the body of a successful run. -/
theorem searchHandler_ok_records (products : List Product) (res : SearchResult) :
    (encodeProducts (Slice.extend none (res.Hits.filterMap (catalogGet products)))).records =
      res.Hits.filterMap (catalogGet products) := by
  rw [encodeProducts_records, Slice.elems_extend]
  rfl

/-- The page of a successful run over any catalog: one search with limit 50 and
offset 0; at most `min(50, max(0, totalMatches - 0))` records, and exactly
that many when every returned hit id is in the catalog. -/
theorem searchHandler_page_bound (products : List Product)
    (Search : SearchRequest → Except String SearchResult) (r : Request)
    (res : SearchResult) (hq : r.Get "q" ≠ "")
    (hs : Search (NewSearchRequestOptions (r.Get "q") 50 0 false) = .ok res)
    (hpage : PagingContract (NewSearchRequestOptions (r.Get "q") 50 0 false) res) :
    ∃ run sreq, searchHandler products Search r = .ok run ∧
      run.searches = [sreq] ∧ sreq.Query = r.Get "q" ∧ sreq.Size = 50 ∧ sreq.From = 0 ∧
      (run.response.body.records.length : Int) ≤ min 50 (max 0 ((res.Total : Int) - 0)) ∧
      run.response.body.records.length ≤ 50 ∧
      ((∀ h ∈ res.Hits, (catalogGet products h).isSome = true) →
        (run.response.body.records.length : Int) = min 50 (max 0 ((res.Total : Int) - 0))) := by
  have hlen : (res.Hits.length : Int) = min 50 (max 0 ((res.Total : Int) - 0)) := hpage
  have hle : (res.Hits.filterMap (catalogGet products)).length ≤ res.Hits.length :=
    List.length_filterMap_le _ _
  refine ⟨_, _, searchHandler_ok products Search r res hq hs, rfl, rfl, rfl, rfl, ?_, ?_, ?_⟩
  · show ((encodeProducts _).records.length : Int) ≤ _
    rw [searchHandler_ok_records, ← hlen]
    exact_mod_cast hle
  · show (encodeProducts _).records.length ≤ 50
    rw [searchHandler_ok_records]
    have h50 : (res.Hits.length : Int) ≤ 50 := by
      rw [hlen]
      exact min_le_left _ _
    omega
  · intro hall
    show ((encodeProducts _).records.length : Int) = _
    rw [searchHandler_ok_records, length_filterMap_of_isSome _ _ hall, hlen]

/-! ## C7: hydration keeps the order and the identity of the hits -/

theorem catalogGet_generateProducts (rnd : Nat → Nat) (n : Int) (h : Hit) :
    (catalogGet (generateProducts rnd n) h).map (fun p => p.ID) = hitIdIn n h := by
  unfold catalogGet hitIdIn
  cases hid : Atoi h.ID with
  | none => rfl
  | some id =>
    have hlen := generateProducts_length rnd n
    by_cases hin : 1 ≤ id ∧ id ≤ n
    · have hguard : ¬ (id ≤ 0 ∨ id > ((generateProducts rnd n).length : Int)) := by
        rw [hlen]
        omega
      simp only [if_neg hguard, generateProducts_at rnd n id hin.1 hin.2, Option.map_some',
        Option.filter, hin, and_self, decide_True, if_true]
      rfl
    · have hguard : id ≤ 0 ∨ id > ((generateProducts rnd n).length : Int) := by
        rw [hlen]
        omega
      simp only [if_pos hguard, Option.map_none', Option.filter, hin, decide_False]
      rfl

/-- C7: with `products = generateProducts(n)`, for a non-empty `q` whose index
search succeeds, the ids of the records in the response are, in the same
order, the hit ids that parse to an integer in `1..n`; each record is the
catalog record of its hit; and when every hit id is in the catalog the
response ids are the parsed hit ids, one for one. -/
theorem searchHandler_hydration_order (rnd : Nat → Nat) (n : Int)
    (Search : SearchRequest → Except String SearchResult) (r : Request)
    (res : SearchResult) (hq : r.Get "q" ≠ "")
    (hs : Search (NewSearchRequestOptions (r.Get "q") 50 0 false) = .ok res) :
    ∃ run, searchHandler (generateProducts rnd n) Search r = .ok run ∧
      run.response.body.records.map (fun p => p.ID) = res.Hits.filterMap (hitIdIn n) ∧
      run.response.body.records = res.Hits.filterMap (catalogGet (generateProducts rnd n)) ∧
      ((∀ h ∈ res.Hits, ∃ id, Atoi h.ID = some id ∧ 1 ≤ id ∧ id ≤ n) →
        run.response.body.records.map (fun p => some p.ID) =
          res.Hits.map (fun h => Atoi h.ID)) := by
  have hids : (res.Hits.filterMap (catalogGet (generateProducts rnd n))).map (fun p => p.ID)
      = res.Hits.filterMap (hitIdIn n) := by
    rw [List.map_filterMap]
    congr 1
    funext h
    exact catalogGet_generateProducts rnd n h
  refine ⟨_, searchHandler_ok (generateProducts rnd n) Search r res hq hs, ?_, ?_, ?_⟩
  · show (encodeProducts _).records.map _ = _
    rw [searchHandler_ok_records, hids]
  · exact searchHandler_ok_records _ res
  · intro hall
    show (encodeProducts _).records.map _ = _
    rw [searchHandler_ok_records]
    have hsome : ∀ h ∈ res.Hits, (hitIdIn n h).isSome = true := by
      intro h hh
      obtain ⟨id, hid, h1, h2⟩ := hall h hh
      simp [hitIdIn, hid, Option.filter, h1, h2]
    have hsame : res.Hits.map (hitIdIn n) = res.Hits.map (fun h => Atoi h.ID) := by
      apply List.map_congr_left
      intro h hh
      obtain ⟨id, hid, h1, h2⟩ := hall h hh
      simp [hitIdIn, hid, Option.filter, h1, h2]
    rw [← hsame, ← map_some_filterMap_of_isSome _ _ hsome, ← hids, List.map_map]
    rfl

/-- Witness of C7: the query `q=product` over `generateProducts(3)`; the page
`"3"`, `"9"`, `"1"` gives the response ids `3`, `1`, and the page `"2"`, `"1"`,
all in the catalog, gives the response ids `2`, `1`. -/
theorem searchHandler_hydration_order_witness :
    (∃ run, searchHandler (generateProducts (fun k => k) 3)
        (searchReturning ["3", "9", "1"] 3) (requestQ "product") = .ok run ∧
      run.response.body.records.map (fun p => p.ID) = [3, 1]) ∧
    (∃ run, searchHandler (generateProducts (fun k => k) 3)
        (searchReturning ["2", "1"] 2) (requestQ "product") = .ok run ∧
      run.response.body.records.map (fun p => some p.ID) = [some 2, some 1]) := by
  constructor
  · obtain ⟨run, hrun, hids, -, -⟩ :=
      searchHandler_hydration_order (fun k => k) 3 (searchReturning ["3", "9", "1"] 3)
        (requestQ "product") { Hits := ["3", "9", "1"].map Hit.mk, Total := 3 }
        (by decide) rfl
    exact ⟨run, hrun, hids.trans (by decide)⟩
  · obtain ⟨run, hrun, -, -, hall⟩ :=
      searchHandler_hydration_order (fun k => k) 3 (searchReturning ["2", "1"] 2)
        (requestQ "product") { Hits := ["2", "1"].map Hit.mk, Total := 2 }
        (by decide) rfl
    exact ⟨run, hrun, (hall (by decide)).trans (by decide)⟩

/-! ## C8: best-effort build -/

theorem indexLoop_cons_failed {σ : Type} (ops : IndexOps σ) (p : Product)
    (rest : List Product) (b : Build σ) (err : String)
    (h : (ops.Index b.idx (Itoa p.ID) p).2 = some err) :
    indexLoop ops (p :: rest) b =
      indexLoop ops rest
        { idx := (ops.Index b.idx (Itoa p.ID) p).1
          calls := b.calls ++ [{ key := Itoa p.ID, doc := p, ok := false }]
          log := b.log ++ ["Failed to index product ID " ++ Itoa p.ID ++ ": " ++ err] } := by
  rw [indexLoop]
  simp only [h]

theorem indexLoop_cons_stored {σ : Type} (ops : IndexOps σ) (p : Product)
    (rest : List Product) (b : Build σ)
    (h : (ops.Index b.idx (Itoa p.ID) p).2 = none) :
    indexLoop ops (p :: rest) b =
      indexLoop ops rest
        { idx := (ops.Index b.idx (Itoa p.ID) p).1
          calls := b.calls ++ [{ key := Itoa p.ID, doc := p, ok := true }]
          log := b.log } := by
  rw [indexLoop]
  simp only [h]

theorem stateAfter_cons {σ : Type} (ops : IndexOps σ) (s : σ) (p : Product)
    (ps : List Product) :
    stateAfter ops s (p :: ps) = stateAfter ops (ops.Index s (Itoa p.ID) p).1 ps := rfl

theorem stateAfter_append {σ : Type} (ops : IndexOps σ) (s : σ) (ps qs : List Product) :
    stateAfter ops s (ps ++ qs) = stateAfter ops (stateAfter ops s ps) qs := by
  unfold stateAfter
  rw [List.foldl_append]

/-- The build loop, step by step: the index it returns is the one obtained by
calling `ops.Index` on every product in order, the calls it records are the
calls of `ops.Index` with the outcome `ops.Index` gave, and it logs one line
per call that returned an error. -/
theorem indexLoop_spec {σ : Type} (ops : IndexOps σ) :
    ∀ (products : List Product) (b : Build σ),
      (indexLoop ops products b).idx = stateAfter ops b.idx products ∧
      (∀ pre p post, products = pre ++ p :: post →
        (indexLoop ops products b).calls.get? (b.calls.length + pre.length) =
          some (callAt ops (stateAfter ops b.idx pre) p)) ∧
      (∀ i, i < b.calls.length →
        (indexLoop ops products b).calls.get? i = b.calls.get? i) ∧
      (indexLoop ops products b).calls.length = b.calls.length + products.length ∧
      ((indexLoop ops products b).calls.filter (fun c => !c.ok)).length + b.log.length =
        (b.calls.filter (fun c => !c.ok)).length + (indexLoop ops products b).log.length := by
  intro products
  induction products with
  | nil =>
    intro b
    refine ⟨rfl, ?_, fun i _ => rfl, rfl, ?_⟩
    · intro pre p post h
      cases pre <;> cases h
    · simp [indexLoop, Nat.add_comm]
  | cons p rest ih =>
    intro b
    have hstep : ∃ b' : Build σ,
        indexLoop ops (p :: rest) b = indexLoop ops rest b' ∧
        b'.idx = (ops.Index b.idx (Itoa p.ID) p).1 ∧
        b'.calls = b.calls ++ [callAt ops b.idx p] ∧
        (b'.calls.filter (fun c => !c.ok)).length + b.log.length =
          (b.calls.filter (fun c => !c.ok)).length + b'.log.length := by
      cases herr : (ops.Index b.idx (Itoa p.ID) p).2 with
      | some err =>
        refine ⟨_, indexLoop_cons_failed ops p rest b err herr, rfl, ?_, ?_⟩
        · simp [callAt, herr]
        · simp [List.filter_append, List.length_append]
          omega
      | none =>
        refine ⟨_, indexLoop_cons_stored ops p rest b herr, rfl, ?_, ?_⟩
        · simp [callAt, herr]
        · simp [List.filter_append, List.length_append]
    obtain ⟨b', hb', hidx, hcalls, hlog⟩ := hstep
    obtain ⟨h1, h2, h3, h4, h5⟩ := ih b'
    have hlen : b'.calls.length = b.calls.length + 1 := by
      rw [hcalls, List.length_append, List.length_singleton]
    rw [hb']
    refine ⟨?_, ?_, ?_, ?_, ?_⟩
    · rw [h1, hidx, stateAfter_cons]
    · intro pre q post hsplit
      cases pre with
      | nil =>
        cases hsplit
        simp only [List.length_nil, Nat.add_zero]
        rw [h3 _ (by omega), hcalls]
        simp [stateAfter]
      | cons p0 pre =>
        cases hsplit
        have := h2 pre q post rfl
        rw [hlen, hidx] at this
        rw [stateAfter_cons, ← this]
        congr 1
        simp only [List.length_cons]
        omega
    · intro i hi
      rw [h3 i (by omega), hcalls, List.get?_eq_getElem?, List.get?_eq_getElem?,
        List.getElem?_append_left hi]
    · rw [h4, hlen, List.length_cons]
      omega
    · omega

/-- A document stored under a key stays the document of that key until a later
product with the same key is stored. -/
theorem stateAfter_doc {σ : Type} (ops : IndexOps σ)
    (hstore : ∀ s key d, (ops.Index s key d).2 = none →
      ops.doc (ops.Index s key d).1 key = some d)
    (hframe : ∀ s key d key', key' ≠ key →
      ops.doc (ops.Index s key d).1 key' = ops.doc s key')
    (hfail : ∀ s key d err, (ops.Index s key d).2 = some err →
      ∀ key', ops.doc (ops.Index s key d).1 key' = ops.doc s key')
    (key : String) :
    ∀ (post : List Product) (s : σ) (d0 : Product), ops.doc s key = some d0 →
      ∃ q, ops.doc (stateAfter ops s post) key = some q ∧
        (q = d0 ∨ (q ∈ post ∧ Itoa q.ID = key)) := by
  intro post
  induction post with
  | nil =>
    intro s d0 h
    exact ⟨d0, h, Or.inl rfl⟩
  | cons r rest ih =>
    intro s d0 h
    rw [stateAfter_cons]
    by_cases hkey : key = Itoa r.ID
    · cases herr : (ops.Index s (Itoa r.ID) r).2 with
      | some err =>
        have hsame : ops.doc (ops.Index s (Itoa r.ID) r).1 key = some d0 := by
          rw [hfail s _ r err herr key, h]
        obtain ⟨q, hq, hor⟩ := ih _ d0 hsame
        refine ⟨q, hq, ?_⟩
        rcases hor with h1 | ⟨h1, h2⟩
        · exact Or.inl h1
        · exact Or.inr ⟨List.mem_cons_of_mem r h1, h2⟩
      | none =>
        have hnew : ops.doc (ops.Index s (Itoa r.ID) r).1 key = some r := by
          rw [hkey]
          exact hstore s _ r herr
        obtain ⟨q, hq, hor⟩ := ih _ r hnew
        refine ⟨q, hq, Or.inr ?_⟩
        rcases hor with h1 | ⟨h1, h2⟩
        · rw [h1]
          exact ⟨List.mem_cons_self r rest, hkey.symm⟩
        · exact ⟨List.mem_cons_of_mem r h1, h2⟩
    · have hsame : ops.doc (ops.Index s (Itoa r.ID) r).1 key = some d0 := by
        rw [hframe s _ r key hkey, h]
      obtain ⟨q, hq, hor⟩ := ih _ d0 hsame
      refine ⟨q, hq, ?_⟩
      rcases hor with h1 | ⟨h1, h2⟩
      · exact Or.inl h1
      · exact Or.inr ⟨List.mem_cons_of_mem r h1, h2⟩

/-- C8: when the index can be created, `indexProducts` returns an index for
every product list, and that index is the one obtained by calling `idx.Index`
under the key `strconv.Itoa(p.ID)` for every product in list order, whatever
each call returned: a failed call stops nothing, the call for the product at
each position is made on the index the earlier calls left, and its recorded
outcome is the one `idx.Index` gave.  For an index that stores the document of
a call without error, leaves the other keys alone and changes nothing on a
failed call, every product whose own call returned no error is in the result:
the document stored under its key is that product, unless a later product of
the list with the same key replaced it; with no later product of the same key
it is the product itself.  One line is logged per failed call. -/
theorem indexProducts_best_effort {σ : Type} (ops : IndexOps σ) (products : List Product)
    (idx0 : σ) (hnew : ops.NewMemOnly = .ok idx0)
    (hstore : ∀ s key d, (ops.Index s key d).2 = none →
      ops.doc (ops.Index s key d).1 key = some d)
    (hframe : ∀ s key d key', key' ≠ key →
      ops.doc (ops.Index s key d).1 key' = ops.doc s key')
    (hfail : ∀ s key d err, (ops.Index s key d).2 = some err →
      ∀ key', ops.doc (ops.Index s key d).1 key' = ops.doc s key') :
    ∃ b, indexProducts ops products = .ok b ∧
      b.idx = stateAfter ops idx0 products ∧
      b.calls.length = products.length ∧
      (∀ pre p post, products = pre ++ p :: post →
        b.calls.get? pre.length = some (callAt ops (stateAfter ops idx0 pre) p) ∧
        ((ops.Index (stateAfter ops idx0 pre) (Itoa p.ID) p).2 = none →
          (∃ q, ops.doc b.idx (Itoa p.ID) = some q ∧
            (q = p ∨ (q ∈ post ∧ Itoa q.ID = Itoa p.ID))) ∧
          ((∀ q ∈ post, Itoa q.ID ≠ Itoa p.ID) →
            ops.doc b.idx (Itoa p.ID) = some p))) ∧
      b.log.length = (b.calls.filter (fun c => !c.ok)).length := by
  obtain ⟨h1, h2, -, h4, h5⟩ :=
    indexLoop_spec ops products { idx := idx0, calls := [], log := [] }
  refine ⟨indexLoop ops products { idx := idx0, calls := [], log := [] }, ?_, h1, ?_, ?_, ?_⟩
  · unfold indexProducts
    rw [hnew]
  · simpa using h4
  · intro pre p post hsplit
    have hcall := h2 pre p post hsplit
    simp only [List.length_nil, Nat.zero_add] at hcall
    refine ⟨hcall, ?_⟩
    intro hok
    have hidx : (indexLoop ops products { idx := idx0, calls := [], log := [] }).idx =
        stateAfter ops (ops.Index (stateAfter ops idx0 pre) (Itoa p.ID) p).1 post := by
      rw [h1, hsplit, stateAfter_append, stateAfter_cons]
    have hdoc := stateAfter_doc ops hstore hframe hfail (Itoa p.ID) post _ p
      (hstore _ _ p hok)
    rw [← hidx] at hdoc
    refine ⟨hdoc, ?_⟩
    intro hnodup
    obtain ⟨q, hq, hor⟩ := hdoc
    rcases hor with h | ⟨hmem, hkey⟩
    · rw [hq, h]
    · exact absurd hkey (hnodup q hmem)
  · simp only [List.filter_nil, List.length_nil, Nat.add_zero, Nat.zero_add] at h5
    exact h5.symm

theorem listIndex_stores (s : List (String × Product)) (key : String) (d : Product)
    (h : (listIndex.Index s key d).2 = none) :
    listIndex.doc (listIndex.Index s key d).1 key = some d := by
  by_cases hn : d.Name = ""
  · simp [listIndex, hn] at h
  · simp [listIndex, hn]

theorem listIndex_frame (s : List (String × Product)) (key : String) (d : Product)
    (key' : String) (h : key' ≠ key) :
    listIndex.doc (listIndex.Index s key d).1 key' = listIndex.doc s key' := by
  by_cases hn : d.Name = ""
  · simp [listIndex, hn]
  · simp [listIndex, hn, List.find?_cons, Ne.symm h]

theorem listIndex_failed (s : List (String × Product)) (key : String) (d : Product)
    (err : String) (h : (listIndex.Index s key d).2 = some err) (key' : String) :
    listIndex.doc (listIndex.Index s key d).1 key' = listIndex.doc s key' := by
  by_cases hn : d.Name = ""
  · simp [listIndex, hn]
  · simp [listIndex, hn] at h

/-- Witness of C8: the list index over a corpus whose second product has an
empty name, so that its indexing call fails between two that succeed: the
build returns the index holding products 1 and 3, records the three calls with
their outcomes and logs the one failure. -/
theorem indexProducts_best_effort_witness :
    ∃ b, indexProducts listIndex
        [⟨1, "Red Shoes", "Footwear"⟩, ⟨2, "", "Footwear"⟩, ⟨3, "Red Book", "Books"⟩] = .ok b ∧
      b.idx = stateAfter listIndex []
        [⟨1, "Red Shoes", "Footwear"⟩, ⟨2, "", "Footwear"⟩, ⟨3, "Red Book", "Books"⟩] ∧
      b.idx = [("3", ⟨3, "Red Book", "Books"⟩), ("1", ⟨1, "Red Shoes", "Footwear"⟩)] ∧
      b.calls = [⟨"1", ⟨1, "Red Shoes", "Footwear"⟩, true⟩, ⟨"2", ⟨2, "", "Footwear"⟩, false⟩,
        ⟨"3", ⟨3, "Red Book", "Books"⟩, true⟩] ∧
      listIndex.doc b.idx "1" = some ⟨1, "Red Shoes", "Footwear"⟩ ∧
      listIndex.doc b.idx "2" = none ∧
      listIndex.doc b.idx "3" = some ⟨3, "Red Book", "Books"⟩ ∧
      b.log = ["Failed to index product ID 2: document has no name"] := by
  obtain ⟨b, hb, hidx, -, hpos, -⟩ :=
    indexProducts_best_effort listIndex
      [⟨1, "Red Shoes", "Footwear"⟩, ⟨2, "", "Footwear"⟩, ⟨3, "Red Book", "Books"⟩] [] rfl
      listIndex_stores listIndex_frame listIndex_failed
  have h1 := (hpos [] ⟨1, "Red Shoes", "Footwear"⟩ _ rfl).2 rfl
  have h3 := (hpos [⟨1, "Red Shoes", "Footwear"⟩, ⟨2, "", "Footwear"⟩]
    ⟨3, "Red Book", "Books"⟩ [] rfl).2 rfl
  have hrun : indexProducts listIndex
      [⟨1, "Red Shoes", "Footwear"⟩, ⟨2, "", "Footwear"⟩, ⟨3, "Red Book", "Books"⟩] =
      .ok { idx := [("3", ⟨3, "Red Book", "Books"⟩), ("1", ⟨1, "Red Shoes", "Footwear"⟩)]
            calls := [⟨"1", ⟨1, "Red Shoes", "Footwear"⟩, true⟩,
              ⟨"2", ⟨2, "", "Footwear"⟩, false⟩, ⟨"3", ⟨3, "Red Book", "Books"⟩, true⟩]
            log := ["Failed to index product ID 2: document has no name"] } := rfl
  refine ⟨b, hb, hidx, ?_, ?_, h1.2 (by decide), ?_, h3.2 (by decide), ?_⟩
  · rw [hidx]
    rfl
  · rw [hrun] at hb
    cases hb
    rfl
  · rw [hidx]
    rfl
  · rw [hrun] at hb
    cases hb
    rfl

/-! ## C6: page size -/

/-- The index key of a catalog record reads back to that record. -/
theorem catalogGet_of_key (rnd : Nat → Nat) (n : Int) (hn : n < 2 ^ 63) (p : Product)
    (hp : p ∈ generateProducts rnd n) (h : Hit) (hkey : h.ID = Itoa p.ID) :
    catalogGet (generateProducts rnd n) h = some p := by
  obtain ⟨k, hk, rfl⟩ := mem_generateProducts rnd n p hp
  have hid : (mkProduct rnd (1 + (k : Int)) k).ID = 1 + (k : Int) := rfl
  have hparse : Atoi h.ID = some (1 + (k : Int)) := by
    rw [hkey, hid]
    exact Atoi_Itoa _ (by omega) (by omega)
  have hguard : ¬ (1 + (k : Int) ≤ 0 ∨
      1 + (k : Int) > ((generateProducts rnd n).length : Int)) := by
    rw [generateProducts_length]
    omega
  have hget := generateProducts_at rnd n (1 + (k : Int)) (by omega) (by omega)
  have hk' : (1 + (k : Int) - 1).toNat = k := by omega
  unfold catalogGet
  rw [hparse]
  simp only [if_neg hguard]
  rw [hget, hk']

/-- Every document of the index after a run of calls was either there before
or is a product of the run, stored under the key `strconv.Itoa` of its id. -/
theorem stateAfter_doc_origin {σ : Type} (ops : IndexOps σ)
    (hstore : ∀ s key d, (ops.Index s key d).2 = none →
      ops.doc (ops.Index s key d).1 key = some d)
    (hframe : ∀ s key d key', key' ≠ key →
      ops.doc (ops.Index s key d).1 key' = ops.doc s key')
    (hfail : ∀ s key d err, (ops.Index s key d).2 = some err →
      ∀ key', ops.doc (ops.Index s key d).1 key' = ops.doc s key') :
    ∀ (ps : List Product) (s : σ) (key : String) (d : Product),
      ops.doc (stateAfter ops s ps) key = some d →
      ops.doc s key = some d ∨ (d ∈ ps ∧ key = Itoa d.ID) := by
  intro ps
  induction ps with
  | nil =>
    intro s key d h
    exact Or.inl h
  | cons r rest ih =>
    intro s key d h
    rw [stateAfter_cons] at h
    rcases ih _ key d h with h1 | ⟨h1, h2⟩
    · by_cases hkey : key = Itoa r.ID
      · cases herr : (ops.Index s (Itoa r.ID) r).2 with
        | some err =>
          rw [hfail s _ r err herr key] at h1
          exact Or.inl h1
        | none =>
          have hnew := hstore s _ r herr
          subst hkey
          rw [h1] at hnew
          cases hnew
          exact Or.inr ⟨List.mem_cons_self _ _, rfl⟩
      · rw [hframe s _ r key hkey] at h1
        exact Or.inl h1
    · exact Or.inr ⟨List.mem_cons_of_mem r h1, h2⟩

/-- The invariant `main` sets up: in the index that `indexProducts` builds from
the catalog, every stored document is a catalog record under the key
`strconv.Itoa` of its id. -/
theorem indexProducts_docs_are_products {σ : Type} (ops : IndexOps σ)
    (products : List Product) (idx0 : σ) (hnew : ops.NewMemOnly = .ok idx0)
    (hfresh : ∀ key, ops.doc idx0 key = none)
    (hstore : ∀ s key d, (ops.Index s key d).2 = none →
      ops.doc (ops.Index s key d).1 key = some d)
    (hframe : ∀ s key d key', key' ≠ key →
      ops.doc (ops.Index s key d).1 key' = ops.doc s key')
    (hfail : ∀ s key d err, (ops.Index s key d).2 = some err →
      ∀ key', ops.doc (ops.Index s key d).1 key' = ops.doc s key') :
    ∃ b, indexProducts ops products = .ok b ∧
      ∀ key d, ops.doc b.idx key = some d → d ∈ products ∧ key = Itoa d.ID := by
  refine ⟨indexLoop ops products { idx := idx0, calls := [], log := [] }, ?_, ?_⟩
  · unfold indexProducts
    rw [hnew]
  · intro key d h
    rw [(indexLoop_spec ops products { idx := idx0, calls := [], log := [] }).1] at h
    rcases stateAfter_doc_origin ops hstore hframe hfail products idx0 key d h with h1 | h1
    · rw [hfresh key] at h1
      cases h1
    · exact h1

theorem listIndex_search_sound (s : List (String × Product)) (req : SearchRequest)
    (res : SearchResult) (h : listIndex.Search s req = .ok res) :
    ∀ hit ∈ res.Hits, ∃ d, listIndex.doc s hit.ID = some d := by
  intro hit hhit
  simp only [listIndex, Except.ok.injEq] at h
  subst h
  simp only [List.mem_map] at hhit
  obtain ⟨kd, hkd, rfl⟩ := hhit
  have hmem : kd ∈ s := by
    have h1 := List.mem_of_mem_take hkd
    have h2 := List.mem_of_mem_drop h1
    have h3 := List.mem_of_mem_filter h2
    exact List.mem_reverse.mp h3
  have hsome : (s.find? (fun e => decide (e.1 = kd.1))).isSome = true := by
    rw [List.find?_isSome]
    exact ⟨kd, hmem, by simp⟩
  obtain ⟨e, he⟩ := Option.isSome_iff_exists.mp hsome
  exact ⟨e.2, by simp [listIndex, he]⟩

/-- C6: with `products = generateProducts(n)` and an index whose hits are keys
`strconv.Itoa(p.ID)` of catalog records, as is the index `main` builds from
`products`, and whose page honours the paging contract: for every non-empty `q`
whose index search succeeds, the handler makes one search, with limit 50 and
offset 0, and the number of records in the response equals
`min(50, max(0, totalMatches - 0))`; in particular it is at most 50 whatever
the corpus size. -/
theorem searchHandler_page_length (rnd : Nat → Nat) (n : Int) (hn : n < 2 ^ 63)
    (Search : SearchRequest → Except String SearchResult) (r : Request)
    (res : SearchResult) (hq : r.Get "q" ≠ "")
    (hs : Search (NewSearchRequestOptions (r.Get "q") 50 0 false) = .ok res)
    (hpage : PagingContract (NewSearchRequestOptions (r.Get "q") 50 0 false) res)
    (hkeys : ∀ h ∈ res.Hits, ∃ p ∈ generateProducts rnd n, h.ID = Itoa p.ID) :
    ∃ run sreq, searchHandler (generateProducts rnd n) Search r = .ok run ∧
      run.searches = [sreq] ∧ sreq.Query = r.Get "q" ∧ sreq.Size = 50 ∧ sreq.From = 0 ∧
      (run.response.body.records.length : Int) = min 50 (max 0 ((res.Total : Int) - 0)) ∧
      run.response.body.records.length ≤ 50 := by
  obtain ⟨run, sreq, hrun, h1, h2, h3, h4, -, h6, h7⟩ :=
    searchHandler_page_bound (generateProducts rnd n) Search r res hq hs hpage
  refine ⟨run, sreq, hrun, h1, h2, h3, h4, h7 ?_, h6⟩
  intro h hh
  obtain ⟨p, hp, hkey⟩ := hkeys h hh
  rw [catalogGet_of_key rnd n hn p hp h hkey]
  rfl

/-- Witness of C6: `generateProducts(3)` with every draw giving `Footwear`, the
list index that `indexProducts` builds from it, and the query `q=Footwear`,
which matches the three documents: the response holds three records. -/
theorem searchHandler_page_length_witness :
    ∃ b run sreq,
      indexProducts listIndex (generateProducts (fun _ => 1) 3) = .ok b ∧
      searchHandler (generateProducts (fun _ => 1) 3) (listIndex.Search b.idx)
        (requestQ "Footwear") = .ok run ∧
      run.searches = [sreq] ∧ sreq.Query = "Footwear" ∧ sreq.Size = 50 ∧ sreq.From = 0 ∧
      (run.response.body.records.length : Int) = min 50 (max 0 (((3 : Nat) : Int) - 0)) ∧
      run.response.body.records.length = 3 := by
  have hgen : generateProducts (fun _ => 1) 3 =
      [⟨1, "Product 1", "Footwear"⟩, ⟨2, "Product 2", "Footwear"⟩,
        ⟨3, "Product 3", "Footwear"⟩] := by
    rw [generateProducts_eq]
    rfl
  obtain ⟨b, hb, hdocs⟩ := indexProducts_docs_are_products listIndex
    (generateProducts (fun _ => 1) 3) [] rfl (fun _ => rfl)
    listIndex_stores listIndex_frame listIndex_failed
  have hb' : b.idx = [("3", ⟨3, "Product 3", "Footwear"⟩), ("2", ⟨2, "Product 2", "Footwear"⟩),
      ("1", ⟨1, "Product 1", "Footwear"⟩)] := by
    rw [hgen] at hb
    cases hb
    rfl
  have hs : listIndex.Search b.idx
      (NewSearchRequestOptions ((requestQ "Footwear").Get "q") 50 0 false) =
      .ok { Hits := ["1", "2", "3"].map Hit.mk, Total := 3 } := by
    rw [hb']
    rfl
  obtain ⟨run, sreq, hrun, h1, h2, h3, h4, h5, -⟩ :=
    searchHandler_page_length (fun _ => 1) 3 (by decide) (listIndex.Search b.idx)
      (requestQ "Footwear") { Hits := ["1", "2", "3"].map Hit.mk, Total := 3 }
      (by decide) hs (by unfold PagingContract; decide)
      (by
        intro h hh
        obtain ⟨d, hd⟩ := listIndex_search_sound b.idx _ _ hs h hh
        exact ⟨d, (hdocs _ _ hd).1, (hdocs _ _ hd).2⟩)
  refine ⟨b, run, sreq, hb, hrun, h1, h2, h3, h4, h5, ?_⟩
  have h5' : (run.response.body.records.length : Int) = 3 := by
    rw [h5]
    decide
  exact_mod_cast h5'

end ProductSearch
